import Mathlib

/-!
Verification of the aipyapp session-scoped sandbox execution pool of
`nekro-agent`, shallowly embedded from:

* `nekro_agent/services/aipyapp_executor/bridge.py`
* `nekro_agent/services/aipyapp_executor/sandbox_executor.py`
* `nekro_agent/services/aipyapp_executor/task_manager.py`
* `plugins/builtin/aipyapp_orchestrator.py`

Python dictionaries are modelled as insertion-ordered association lists,
timestamps and durations as natural numbers, exceptions as values carrying
their type name and message, and the opaque aipyapp runtime behaviour as an
explicit event datatype consumed by the executor.
-/

set_option autoImplicit false

/-- A Python value as far as the executor inspects it: the JSON-safe
primitive/composite constructors mirror the `isinstance(value, (int, float,
str, bool, list, dict))` check in `_execute_in_aipyapp`; `obj` stands for any
other Python object (tagged with its type name). Floats are carried as
rationals; no float arithmetic is modelled. -/
inductive PyVal where
  | int : Int → PyVal
  | float : Rat → PyVal
  | str : String → PyVal
  | bool : Bool → PyVal
  | list : List PyVal → PyVal
  | dict : List (String × PyVal) → PyVal
  | obj : String → PyVal

/-- The `isinstance(value, (int, float, str, bool, list, dict))` test from
`sandbox_executor.py` line 210. -/
def jsonSafe : PyVal → Bool
  | PyVal.obj _ => false
  | _ => true

/-- A raised Python exception, as observed by the executor: its nominal type
name (`type(e).__name__`) and its message (`str(e)`). -/
structure Exc where
  type_name : String
  message : String

/-- `bridge.py` `_get_recovery_suggestion`: dictionary lookup with a default. -/
def get_recovery_suggestion (error_type : String) : String :=
  if error_type = "SyntaxError" then "Check Python syntax in the generated code"
  else if error_type = "TimeoutError" then "Task exceeded time limit, consider breaking into smaller tasks"
  else if error_type = "MemoryError" then "Task used too much memory, optimize data processing"
  else if error_type = "ModuleNotFoundError" then "Required Python module not available in sandbox"
  else if error_type = "ValueError" then "Invalid input data, check task parameters"
  else "Review task requirements and try again"

/-- The error dictionary produced by `AipyappBridge.map_error`. -/
structure ErrorInfo where
  error_type : String
  error_message : String
  recovery_suggestion : String
deriving DecidableEq

/-- `AipyappBridge.map_error` from `bridge.py`. -/
def map_error (aipyapp_error : Exc) : ErrorInfo :=
  { error_type := aipyapp_error.type_name
  , error_message := aipyapp_error.message
  , recovery_suggestion := get_recovery_suggestion aipyapp_error.type_name }

/-- nekro-agent `AgentCtx`: the external identity tuple. -/
structure AgentCtx where
  chat_key : String
  user_id : String
  platform_type : String
  bot_id : String

/-- The context dictionary built by `AipyappBridge.create_aipyapp_context`. -/
structure AipyappContext where
  chat_key : String
  user_id : String
  platform_type : String
  bot_id : String
  workdir : String
  session_id : String
  created_by : String
  orchestrator : String
deriving DecidableEq

/-- `AipyappBridge.create_aipyapp_context` from `bridge.py`. -/
def create_aipyapp_context (ctx : AgentCtx) : AipyappContext :=
  { chat_key := ctx.chat_key
  , user_id := ctx.user_id
  , platform_type := ctx.platform_type
  , bot_id := ctx.bot_id
  , workdir := "/tmp/aipyapp_" ++ ctx.chat_key
  , session_id := "nekro_" ++ ctx.chat_key ++ "_" ++ ctx.user_id
  , created_by := "nekro-agent"
  , orchestrator := "nekro-agent" }

/-- The pool key used by `AipyappSandboxExecutor.execute_task` and
`_get_task_manager`: `session_id = f"{ctx.chat_key}_{ctx.user_id}"`. -/
def executorSessionId (ctx : AgentCtx) : String :=
  ctx.chat_key ++ "_" ++ ctx.user_id

/-- The raw result dictionary returned by `_execute_in_aipyapp`; every field
is optional because `format_result_for_nekro` reads it with `dict.get`. -/
structure RawResult where
  success : Option Bool
  output : Option String
  error : Option String
  artifacts : Option (List String)
  execution_time : Option Nat
  vars : Option (List (String × PyVal))

/-- The normalized task result handed back to nekro-agent. -/
structure TaskResult where
  success : Bool
  output : String
  error : Option String
  artifacts : List String
  execution_time : Nat
  vars : List (String × PyVal)

/-- `AipyappBridge.format_result_for_nekro` from `bridge.py`: each field is
read with `result.get(key, default)`. -/
def format_result_for_nekro (result : RawResult) : TaskResult :=
  { success := result.success.getD false
  , output := result.output.getD ""
  , error := result.error
  , artifacts := result.artifacts.getD []
  , execution_time := result.execution_time.getD 0
  , vars := result.vars.getD [] }

/-- A file found while scanning the task directory with `rglob`. -/
structure FileEntry where
  relpath : String
  suffix : String
  isFile : Bool

/-- What an aipyapp `task.run` that returned normally exposes afterwards:
the per-step, per-round LLM message contents (`none` when a round has no
`llm_response` or no `message`), the files under `task.cwd` (with an
existence flag for the directory itself), the runtime globals when the task
has a `runtime.globals` attribute, and the elapsed wall-clock seconds. -/
structure RunCompletion where
  stepRounds : List (List (Option String))
  cwdExists : Bool
  files : List FileEntry
  globalsMap : Option (List (String × PyVal))
  elapsed : Nat

/-- Behaviour of one `task.run` call: it either raises an exception (after
`elapsed` seconds) or completes. -/
inductive RunBehavior where
  | raises : Exc → Nat → RunBehavior
  | completes : RunCompletion → RunBehavior

/-- Behaviour of one `execute_task` call's environment: the session/TaskManager
setup raises, the `asyncio.wait_for` deadline fires, or `_execute_in_aipyapp`
runs `task.run` with the given behaviour. -/
inductive RuntimeEvent where
  | setupRaises : Exc → RuntimeEvent
  | timeout : RuntimeEvent
  | runs : RunBehavior → RuntimeEvent

/-- `AipyappExecutionError` from `sandbox_executor.py`. -/
inductive ExecError where
  | AipyappExecutionError : String → ExecError
deriving DecidableEq

/-- The message carried by an `ExecError`. -/
def execErrorMessage : ExecError → String
  | ExecError.AipyappExecutionError msg => msg

/-- Output collection loop of `_execute_in_aipyapp` (lines 190-195): gather
every present LLM message content across steps and rounds, join with
newlines, defaulting when no line was collected. -/
def collectOutput (stepRounds : List (List (Option String))) : String :=
  let output_lines := stepRounds.flatten.filterMap id
  if output_lines.isEmpty then "Task completed successfully"
  else String.intercalate "\n" output_lines

/-- The artifact extension allow-list of `_execute_in_aipyapp` line 202. -/
def allowedSuffixes : List String :=
  [".png", ".jpg", ".csv", ".json", ".txt"]

/-- Artifact scan of `_execute_in_aipyapp` (lines 197-203). -/
def collectArtifacts (cwdExists : Bool) (files : List FileEntry) : List String :=
  if cwdExists then
    (files.filter (fun f => f.isFile && allowedSuffixes.contains f.suffix)).map
      (fun f => f.relpath)
  else []

/-- Python `key.startswith('_')`: whether the first character of the string
is an underscore. -/
def startsWithUnderscore (s : String) : Bool :=
  match s.data with
  | [] => false
  | c :: _ => c = '_'

/-- Variable snapshot filter of `_execute_in_aipyapp` (lines 205-211): keep
exactly the globals whose name has no leading underscore and whose value is
of a JSON-safe type. -/
def collectVariables (globalsMap : List (String × PyVal)) : List (String × PyVal) :=
  globalsMap.filter (fun kv => !startsWithUnderscore kv.1 && jsonSafe kv.2)

/-- `AipyappSandboxExecutor._execute_in_aipyapp`: runs `task.run` inside a
`try`; on any exception it returns a failure dictionary (it does not
re-raise); on completion it collects output, artifacts and variables. -/
def execute_in_aipyapp (b : RunBehavior) : RawResult :=
  match b with
  | RunBehavior.raises e elapsed =>
      { success := some false
      , output := some ""
      , error := some e.message
      , artifacts := some []
      , execution_time := some elapsed
      , vars := some [] }
  | RunBehavior.completes c =>
      { success := some true
      , output := some (collectOutput c.stepRounds)
      , error := none
      , artifacts := some (collectArtifacts c.cwdExists c.files)
      , execution_time := some c.elapsed
      , vars := some (collectVariables (c.globalsMap.getD [])) }

/-- `AipyappSandboxExecutor.execute_task` (`sandbox_executor.py` lines
79-126), with the environment's behaviour made explicit: a raise from the
setup phase is classified through `map_error` and re-raised as
`AipyappExecutionError`; a fired deadline raises `AipyappExecutionError`
with the configured timeout in the message; a completed
`_execute_in_aipyapp` call (which never raises) has its raw dictionary
normalized by `format_result_for_nekro` and returned. -/
def execute_task (timeout : Nat) (ev : RuntimeEvent) : Except ExecError TaskResult :=
  match ev with
  | RuntimeEvent.setupRaises e =>
      Except.error (ExecError.AipyappExecutionError (map_error e).error_message)
  | RuntimeEvent.timeout =>
      Except.error (ExecError.AipyappExecutionError
        ("Task execution exceeded " ++ toString timeout ++ "s timeout"))
  | RuntimeEvent.runs b =>
      Except.ok (format_result_for_nekro (execute_in_aipyapp b))

/-- One entry of the session pool dictionary of `task_manager.py` (lines
80-88).  The lazily-initialized aipyapp `TaskManager` handle is `none` in
every record this module itself creates.  `config` models the stored
configuration dictionary, `task_manager` the runtime handle slot. -/
structure SessionRecord where
  workdir : String
  config : List (String × PyVal)
  task_manager : Option Unit
  created_at : Nat
  last_accessed : Nat
  task_count : Nat

/-- The `AipyappTaskManager` pool state: base workdir, limits, and the
insertion-ordered `_sessions` dictionary. -/
structure AipyappTaskManager where
  workdir : String
  max_sessions : Nat
  session_timeout : Nat
  sessions : List (String × SessionRecord)

/-- First record stored under `sid`, mirroring `self._sessions.get(sid)`
(a Python dict holds at most one entry per key; on our association lists
the first occurrence is authoritative). -/
def lookupSession (l : List (String × SessionRecord)) (sid : String) :
    Option SessionRecord :=
  match l with
  | [] => none
  | (k, r) :: rest => if k = sid then some r else lookupSession rest sid

/-- Remove the entry stored under `sid`, mirroring `self._sessions.pop(sid)`. -/
def removeSession (l : List (String × SessionRecord)) (sid : String) :
    List (String × SessionRecord) :=
  match l with
  | [] => []
  | (k, r) :: rest => if k = sid then rest else (k, r) :: removeSession rest sid

/-- In-place `session["last_accessed"] = now` on the entry stored under `sid`. -/
def setLastAccessed (l : List (String × SessionRecord)) (sid : String) (now : Nat) :
    List (String × SessionRecord) :=
  match l with
  | [] => []
  | (k, r) :: rest =>
      if k = sid then (k, { r with last_accessed := now }) :: rest
      else (k, r) :: setLastAccessed rest sid now

/-- `min(self._sessions.keys(), key=lambda sid: ...["last_accessed"])` from
`_cleanup_oldest_session`: Python's `min` keeps the first element attaining
the minimum, so ties go to the earliest-inserted entry. -/
def oldestEntry : List (String × SessionRecord) → Option (String × SessionRecord)
  | [] => none
  | e :: rest =>
      some (match oldestEntry rest with
        | none => e
        | some b => if b.2.last_accessed < e.2.last_accessed then b else e)

/-- `AipyappTaskManager.cleanup_session` (`task_manager.py` lines 106-129):
pop the record, run the (no-op) aipyapp cleanup hook, report whether a
record was removed. -/
def AipyappTaskManager.cleanup_session (m : AipyappTaskManager) (sid : String) :
    Bool × AipyappTaskManager :=
  match lookupSession m.sessions sid with
  | none => (false, m)
  | some _ => (true, { m with sessions := removeSession m.sessions sid })

/-- `AipyappTaskManager._cleanup_oldest_session` (lines 155-170): no-op on an
empty pool, otherwise remove the entry with minimal `last_accessed`. -/
def AipyappTaskManager.cleanup_oldest_session (m : AipyappTaskManager) :
    AipyappTaskManager :=
  match oldestEntry m.sessions with
  | none => m
  | some e => (m.cleanup_session e.1).2

/-- `AipyappTaskManager.create_session` (lines 54-90).  `now` stands for the
`time.time()` reading; `config.getD []` mirrors `config or {}`.  An existing
key returns immediately (reuse); at capacity the oldest entry is evicted
first; the fresh record is appended (Python dict insertion order). -/
def AipyappTaskManager.create_session (m : AipyappTaskManager) (sid : String)
    (config : Option (List (String × PyVal))) (now : Nat) : AipyappTaskManager :=
  if (lookupSession m.sessions sid).isSome then m
  else
    let m1 := if m.sessions.length ≥ m.max_sessions then m.cleanup_oldest_session else m
    { m1 with sessions := m1.sessions ++
        [(sid, { workdir := m1.workdir ++ "/" ++ sid
               , config := config.getD []
               , task_manager := none
               , created_at := now
               , last_accessed := now
               , task_count := 0 })] }

/-- `AipyappTaskManager.get_session` (lines 92-104): if found, set the
record's `last_accessed` to now and return it (the returned dictionary is
the stored, mutated one); otherwise return `none` and leave the pool alone. -/
def AipyappTaskManager.get_session (m : AipyappTaskManager) (sid : String) (now : Nat) :
    Option SessionRecord × AipyappTaskManager :=
  match lookupSession m.sessions sid with
  | none => (none, m)
  | some r =>
      (some { r with last_accessed := now },
       { m with sessions := setLastAccessed m.sessions sid now })

/-- `AipyappTaskManager.cleanup_idle_sessions` (lines 131-153): list the
session ids whose idle time strictly exceeds `session_timeout`, pop each via
`cleanup_session`, return how many ids were listed. -/
def AipyappTaskManager.cleanup_idle_sessions (m : AipyappTaskManager) (now : Nat) :
    Nat × AipyappTaskManager :=
  let idle_sessions :=
    (m.sessions.filter (fun kv => now - kv.2.last_accessed > m.session_timeout)).map
      (fun kv => kv.1)
  (idle_sessions.length,
   idle_sessions.foldl (fun acc sid => (acc.cleanup_session sid).2) m)

/-- The dictionary returned by `AipyappTaskManager.get_stats` (lines 172-184). -/
structure PoolStats where
  active_sessions : Nat
  max_sessions : Nat
  total_tasks : Nat
deriving DecidableEq

/-- `AipyappTaskManager.get_stats`. -/
def AipyappTaskManager.get_stats (m : AipyappTaskManager) : PoolStats :=
  { active_sessions := m.sessions.length
  , max_sessions := m.max_sessions
  , total_tasks := (m.sessions.map (fun kv => kv.2.task_count)).sum }

/-- A sequence of `create_session` calls, each `(sid, config, now)`. -/
def runCreates (m : AipyappTaskManager) :
    List (String × Option (List (String × PyVal)) × Nat) → AipyappTaskManager
  | [] => m
  | (sid, config, now) :: rest => runCreates (m.create_session sid config now) rest

/-- One entry of `steps_results` in `execute_python_workflow`
(`aipyapp_orchestrator.py` lines 327-331): step number (1-based),
instruction, and the step's task result (spread into the dictionary). -/
structure WorkflowStep where
  step : Nat
  instruction : String
  result : TaskResult

/-- The workflow response dictionary.  The three return sites of
`execute_python_workflow` populate different key sets, so every key that
some return site omits is optional: the early-failure return carries no
`final_output` and no aggregate `artifacts`; the exception return carries
neither of those nor `total_time`. -/
structure WorkflowOutcome where
  success : Bool
  steps : List WorkflowStep
  error : Option String
  final_output : Option String
  artifacts : Option (List String)
  total_time : Option Nat

/-- Python `str` of an optional error message: `str(None) = "None"`, used by
the f-string `f"Step {i+1} failed: {step_result.get('error')}"`. -/
def pyStrOpt : Option String → String
  | none => "None"
  | some s => s

/-- The call log: each `executor.execute_task` invocation the workflow makes,
as the pair (instruction, context dictionary passed). -/
abbrev CallLog := List (String × List (String × PyVal))

/-- The loop body of `execute_python_workflow` (lines 315-357), instrumented
with the log of `execute_task` calls it performs.  Parameters mirror the
Python locals: `i` the 0-based index, `cz` the `context_dict`, `acc` the
`steps_results` so far, `tot` the running `total_time`.  On an exhausted
instruction list the success response is built — reading
`steps_results[-1]` raises `IndexError` ("list index out of range") when no
step ran, which the outer `except` turns into a failure response.  A step
whose `execute_task` raises yields the exception response (the raising step
is not recorded, `total_time` and `artifacts` absent).  A recorded step with
`success=False` stops the workflow with `total_time` not yet including that
step and no aggregate `artifacts` key.  Otherwise `context_dict` is rebound
to `{"variables": result["variables"]}` and the loop continues. -/
def workflowGo (t : Nat) (i : Nat) (cz : List (String × PyVal))
    (acc : List WorkflowStep) (tot : Nat) :
    List (String × RuntimeEvent) → WorkflowOutcome × CallLog
  | [] =>
      match acc.getLast? with
      | none =>
          ({ success := false, steps := acc, error := some ("list index out of range")
           , final_output := none, artifacts := none, total_time := none }, [])
      | some lastStep =>
          ({ success := true, steps := acc, error := none
           , final_output := some lastStep.result.output
           , artifacts := some ((acc.map (fun s => s.result.artifacts)).flatten)
           , total_time := some tot }, [])
  | (ins, ev) :: rest =>
      match execute_task t ev with
      | Except.error e =>
          ({ success := false, steps := acc, error := some (execErrorMessage e)
           , final_output := none, artifacts := none, total_time := none },
           [(ins, cz)])
      | Except.ok r =>
          let acc' := acc ++ [{ step := i + 1, instruction := ins, result := r }]
          if r.success then
            let res := workflowGo t (i + 1) [("variables", PyVal.dict r.vars)] acc'
              (tot + r.execution_time) rest
            (res.1, (ins, cz) :: res.2)
          else
            ({ success := false, steps := acc'
             , error := some ("Step " ++ toString (i + 1) ++ " failed: " ++ pyStrOpt r.error)
             , final_output := none, artifacts := none, total_time := some tot },
             [(ins, cz)])

/-- `execute_python_workflow` over an already-parsed instruction list, each
instruction paired with the behaviour its `execute_task` call encounters;
`context_dict` starts as the empty dictionary. -/
def execute_python_workflow (t : Nat) (steps : List (String × RuntimeEvent)) :
    WorkflowOutcome × CallLog :=
  workflowGo t 0 [] [] 0 steps

/-- Whether `execute_task` under behaviour `ev` returns a result reporting
success. -/
def stepSucceeds (t : Nat) (ev : RuntimeEvent) : Bool :=
  match execute_task t ev with
  | Except.ok r => r.success
  | Except.error _ => false

/-- Whether `execute_task` under behaviour `ev` returns (without raising) a
result reporting failure. -/
def stepFailsOk (t : Nat) (ev : RuntimeEvent) : Bool :=
  match execute_task t ev with
  | Except.ok r => !r.success
  | Except.error _ => false

/-- The execution time of the result `execute_task` returns under `ev`
(zero if it raises). -/
def resultTime (t : Nat) (ev : RuntimeEvent) : Nat :=
  match execute_task t ev with
  | Except.ok r => r.execution_time
  | Except.error _ => 0

/-- The artifacts of the result `execute_task` returns under `ev` (empty if
it raises). -/
def resultArtifacts (t : Nat) (ev : RuntimeEvent) : List String :=
  match execute_task t ev with
  | Except.ok r => r.artifacts
  | Except.error _ => []

/-! ## Concrete instances used by scenario theorems and witnesses -/

/-- A runtime globals snapshot: one public JSON-safe entry, one private
entry, one non-JSON-safe object. -/
def gC9 : List (String × PyVal) :=
  [("x", PyVal.int 1), ("_hidden", PyVal.int 2), ("frame", PyVal.obj "DataFrame")]

/-- A completed run exposing `gC9` as its runtime globals. -/
def cC9 : RunCompletion :=
  { stepRounds := [], cwdExists := true, files := [], globalsMap := some gC9, elapsed := 1 }

/-- The task result `execute_task` produces for `cC9`. -/
def trC9 : TaskResult :=
  { success := true, output := "Task completed successfully", error := none
  , artifacts := [], execution_time := 1, vars := [("x", PyVal.int 1)] }

/-- A session record as `create_session` stores it. -/
def recC10 : SessionRecord :=
  { workdir := "/w/s1", config := [], task_manager := none
  , created_at := 10, last_accessed := 10, task_count := 0 }

/-- A pool at full capacity (`max_sessions = 1`) holding `s1`. -/
def mC10 : AipyappTaskManager :=
  { workdir := "/w", max_sessions := 1, session_timeout := 3600
  , sessions := [("s1", recC10)] }

/-- A session record with a nonzero task count, for observing that
`get_session` leaves `task_count` alone. -/
def recC8 : SessionRecord :=
  { workdir := "/w/s1", config := [], task_manager := none
  , created_at := 10, last_accessed := 10, task_count := 5 }

/-- A pool holding the single record `recC8` under key `s1`. -/
def mC8 : AipyappTaskManager :=
  { workdir := "/w", max_sessions := 100, session_timeout := 3600
  , sessions := [("s1", recC8)] }

/-- An idle record: `last_accessed = 0`. -/
def recC7idle : SessionRecord :=
  { workdir := "/w/s1", config := [], task_manager := none
  , created_at := 0, last_accessed := 0, task_count := 1 }

/-- A fresh record: `last_accessed = 95`. -/
def recC7fresh : SessionRecord :=
  { workdir := "/w/s2", config := [], task_manager := none
  , created_at := 95, last_accessed := 95, task_count := 2 }

/-- A pool with idle timeout 10 holding one idle and one fresh record. -/
def mC7 : AipyappTaskManager :=
  { workdir := "/w", max_sessions := 100, session_timeout := 10
  , sessions := [("s1", recC7idle), ("s2", recC7fresh)] }

/-- An empty pool with capacity 5, for the LRU scenario. -/
def mC4 : AipyappTaskManager :=
  { workdir := "/w", max_sessions := 5, session_timeout := 3600, sessions := [] }

/-- Create `s0..s4` at times `0..4`, then `s5` at time 5. -/
def opsC4 : List (String × Option (List (String × PyVal)) × Nat) :=
  [("s0", none, 0), ("s1", none, 1), ("s2", none, 2), ("s3", none, 3),
   ("s4", none, 4), ("s5", none, 5)]

/-- A record accessed at time 3. -/
def recC4a : SessionRecord :=
  { workdir := "/w/a", config := [], task_manager := none
  , created_at := 3, last_accessed := 3, task_count := 0 }

/-- A record accessed at time 1: the LRU entry, deliberately not the first. -/
def recC4b : SessionRecord :=
  { workdir := "/w/b", config := [], task_manager := none
  , created_at := 1, last_accessed := 1, task_count := 0 }

/-- A pool at full capacity (2 of 2) whose LRU entry is `b`. -/
def mC4full : AipyappTaskManager :=
  { workdir := "/w", max_sessions := 2, session_timeout := 3600
  , sessions := [("a", recC4a), ("b", recC4b)] }

/-- Step `a`: succeeds with output "out a", artifact `x.png`, variable
`x = 1`, 3 seconds. -/
def evC5a : RuntimeEvent :=
  RuntimeEvent.runs (RunBehavior.completes
    { stepRounds := [[some "out a"]], cwdExists := true
    , files := [{ relpath := "x.png", suffix := ".png", isFile := true }]
    , globalsMap := some [("x", PyVal.int 1)], elapsed := 3 })

/-- Step `b` (succeeding variant): output "out b", artifact `y.csv`,
variable `y = 2`, 4 seconds. -/
def evC5b : RuntimeEvent :=
  RuntimeEvent.runs (RunBehavior.completes
    { stepRounds := [[some "out b"]], cwdExists := true
    , files := [{ relpath := "y.csv", suffix := ".csv", isFile := true }]
    , globalsMap := some [("y", PyVal.int 2)], elapsed := 4 })

/-- Step `b` (failing variant): `task.run` raises, so the step's result
reports `success=False`. -/
def evC5fail : RuntimeEvent :=
  RuntimeEvent.runs (RunBehavior.raises ⟨"ValueError", "bad step"⟩ 1)

/-- Step `c`: succeeds with output "out c", variable `z = 3`, 2 seconds. -/
def evC5c : RuntimeEvent :=
  RuntimeEvent.runs (RunBehavior.completes
    { stepRounds := [[some "out c"]], cwdExists := true, files := []
    , globalsMap := some [("z", PyVal.int 3)], elapsed := 2 })

/-- The workflow `["a", "b", "c"]` with `b` failing. -/
def wfC5 : List (String × RuntimeEvent) := [("a", evC5a), ("b", evC5fail), ("c", evC5c)]

/-- The workflow `["a", "b", "c"]` with every step succeeding. -/
def wfC5ok : List (String × RuntimeEvent) := [("a", evC5a), ("b", evC5b), ("c", evC5c)]

/-- A pool with the degenerate capacity 0. -/
def mC4zero : AipyappTaskManager :=
  { workdir := "/w", max_sessions := 0, session_timeout := 3600, sessions := [] }

/-! ## Theorems -/

/-- Every entry kept by the `_execute_in_aipyapp` variable filter has a
non-underscore name and a JSON-safe value, and exactly the qualifying
entries of the globals snapshot are kept. -/
theorem mem_collectVariables (kv : String × PyVal) (g : List (String × PyVal)) :
    kv ∈ collectVariables g ↔
      kv ∈ g ∧ startsWithUnderscore kv.1 = false ∧ jsonSafe kv.2 = true := by
  simp [collectVariables, List.mem_filter]

/-- C1 counterexample: with the runtime raising `ValueError("boom")` inside
`task.run`, `execute_task` does not raise — `_execute_in_aipyapp` catches the
exception (sandbox_executor.py lines 223-234) and `execute_task` returns a
normal `TaskResult` with `success=False` and `error="boom"`, with no typed
execution error and no consultation of `map_error`.  This falsifies the
claim that every `Runtime.run` exception is re-raised as a typed execution
error carrying the `map_error` classification. -/
theorem execute_task_runtime_raise_returns_result_cex :
    execute_task 300 (RuntimeEvent.runs (RunBehavior.raises ⟨"ValueError", "boom"⟩ 2))
      = Except.ok { success := false, output := "", error := some "boom"
                  , artifacts := [], execution_time := 2, vars := [] } := rfl

/-- C1 amended: an exception raised by `task.run` is swallowed by
`_execute_in_aipyapp` and surfaces as a returned `TaskResult` with
`success=False` and `error=str(e)`; a typed `AipyappExecutionError` carrying
`map_error`'s classified message is raised only for exceptions arising
outside `_execute_in_aipyapp` (session/TaskManager setup). -/
theorem execute_task_error_propagation (t elapsed : Nat) (e : Exc) :
    execute_task t (RuntimeEvent.runs (RunBehavior.raises e elapsed))
      = Except.ok { success := false, output := "", error := some e.message
                  , artifacts := [], execution_time := elapsed, vars := [] }
    ∧ execute_task t (RuntimeEvent.setupRaises e)
      = Except.error (ExecError.AipyappExecutionError (map_error e).error_message)
    ∧ (map_error e).error_message = e.message :=
  ⟨rfl, rfl, rfl⟩

/-- C2: when the `asyncio.wait_for` deadline fires, `execute_task` raises
(returns `Except.error`) a typed `AipyappExecutionError` whose message
carries the configured timeout, and returns no `TaskResult` at all. -/
theorem execute_task_timeout_raises (t : Nat) :
    execute_task t RuntimeEvent.timeout
      = Except.error (ExecError.AipyappExecutionError
          ("Task execution exceeded " ++ toString t ++ "s timeout"))
    ∧ ∀ r : TaskResult, execute_task t RuntimeEvent.timeout ≠ Except.ok r :=
  ⟨rfl, fun _ h => Except.noConfusion h⟩

/-- C2 witness: the timeout theorem at the default 300-second configuration
and an arbitrary concrete result value. -/
theorem execute_task_timeout_raises_witness :
    execute_task 300 RuntimeEvent.timeout
      = Except.error (ExecError.AipyappExecutionError
          ("Task execution exceeded " ++ toString 300 ++ "s timeout"))
    ∧ execute_task 300 RuntimeEvent.timeout
      ≠ Except.ok { success := false, output := "", error := none
                  , artifacts := [], execution_time := 0, vars := [] } :=
  ⟨(execute_task_timeout_raises 300).1,
   (execute_task_timeout_raises 300).2
     { success := false, output := "", error := none
     , artifacts := [], execution_time := 0, vars := [] }⟩

/-- C3 counterexample: the pool key `execute_task`/`_get_task_manager`
actually use is `f"{chat_key}_{user_id}"`, which differs from the
ContextBridge `session_id = f"nekro_{chat_key}_{user_id}"` — the executor
does not derive its pool key via the bridge. -/
theorem pool_key_differs_from_bridge_session_key_cex :
    executorSessionId { chat_key := "c", user_id := "u", platform_type := "qq", bot_id := "b" }
      ≠ (create_aipyapp_context
          { chat_key := "c", user_id := "u", platform_type := "qq", bot_id := "b" }).session_id := by
  decide

/-- C3 amended: `create_aipyapp_context` yields
`session_id = "nekro_" + chat_key + "_" + user_id` and
`workdir = "/tmp/aipyapp_" + chat_key`, but the executor's pool key is
`chat_key + "_" + user_id`: the bridge session key with its `"nekro_"`
prefix stripped, not the bridge session key itself. -/
theorem create_context_keys_and_pool_key (ctx : AgentCtx) :
    (create_aipyapp_context ctx).session_id = "nekro_" ++ ctx.chat_key ++ "_" ++ ctx.user_id
    ∧ (create_aipyapp_context ctx).workdir = "/tmp/aipyapp_" ++ ctx.chat_key
    ∧ executorSessionId ctx = ctx.chat_key ++ "_" ++ ctx.user_id
    ∧ (create_aipyapp_context ctx).session_id = "nekro_" ++ executorSessionId ctx := by
  refine ⟨rfl, rfl, rfl, ?_⟩
  simp [create_aipyapp_context, executorSessionId, String.append_assoc]

/-- C6 counterexample: the fallback recovery suggestion for an unrecognized
exception type is the literal "Review task requirements and try again", not
"review task requirements and retry" as the spec states. -/
theorem map_error_default_suggestion_cex :
    (map_error ⟨"RuntimeError", "Unknown error occurred"⟩).recovery_suggestion
      = "Review task requirements and try again"
    ∧ ¬ (map_error ⟨"RuntimeError", "Unknown error occurred"⟩).recovery_suggestion
      = "review task requirements and retry" := by
  exact ⟨rfl, by decide⟩

/-- C6 amended: `map_error` is total, always carries the exception's type
name and message, maps each of the five recognized type names to its fixed
suggestion, and maps every other type name to the default
"Review task requirements and try again". -/
theorem map_error_classification (e : Exc) :
    ((map_error e).error_type = e.type_name ∧ (map_error e).error_message = e.message)
    ∧ ((e.type_name = "SyntaxError" →
          (map_error e).recovery_suggestion = "Check Python syntax in the generated code")
      ∧ (e.type_name = "TimeoutError" →
          (map_error e).recovery_suggestion
            = "Task exceeded time limit, consider breaking into smaller tasks")
      ∧ (e.type_name = "MemoryError" →
          (map_error e).recovery_suggestion = "Task used too much memory, optimize data processing")
      ∧ (e.type_name = "ModuleNotFoundError" →
          (map_error e).recovery_suggestion = "Required Python module not available in sandbox")
      ∧ (e.type_name = "ValueError" →
          (map_error e).recovery_suggestion = "Invalid input data, check task parameters"))
    ∧ (e.type_name ∉ (["SyntaxError", "TimeoutError", "MemoryError",
          "ModuleNotFoundError", "ValueError"] : List String) →
        (map_error e).recovery_suggestion = "Review task requirements and try again") := by
  refine ⟨⟨rfl, rfl⟩, ⟨?_, ?_, ?_, ?_, ?_⟩, ?_⟩ <;> intro h
  · simp only [map_error]; rw [h]; decide
  · simp only [map_error]; rw [h]; decide
  · simp only [map_error]; rw [h]; decide
  · simp only [map_error]; rw [h]; decide
  · simp only [map_error]; rw [h]; decide
  · have h1 : ¬ e.type_name = "SyntaxError" := fun hh => h (by rw [hh]; decide)
    have h2 : ¬ e.type_name = "TimeoutError" := fun hh => h (by rw [hh]; decide)
    have h3 : ¬ e.type_name = "MemoryError" := fun hh => h (by rw [hh]; decide)
    have h4 : ¬ e.type_name = "ModuleNotFoundError" := fun hh => h (by rw [hh]; decide)
    have h5 : ¬ e.type_name = "ValueError" := fun hh => h (by rw [hh]; decide)
    simp [map_error, get_recovery_suggestion, h1, h2, h3, h4, h5]

/-- C6 witness: the classification theorem at a concrete unrecognized
exception type. -/
theorem map_error_classification_witness :
    (map_error ⟨"RuntimeError", "Unknown error occurred"⟩).error_type = "RuntimeError"
    ∧ (map_error ⟨"RuntimeError", "Unknown error occurred"⟩).recovery_suggestion
      = "Review task requirements and try again" :=
  ⟨(map_error_classification ⟨"RuntimeError", "Unknown error occurred"⟩).1.1,
   (map_error_classification ⟨"RuntimeError", "Unknown error occurred"⟩).2.2 (by decide)⟩

/-- C9: in every `TaskResult` a normally completing execution returns, the
variables map holds only entries with a non-underscore name and a JSON-safe
value, and when the task exposes runtime globals, exactly the qualifying
globals are kept — every violating entry is dropped. -/
theorem task_result_variables_filtered (t : Nat) (c : RunCompletion) (tr : TaskResult)
    (h : execute_task t (RuntimeEvent.runs (RunBehavior.completes c)) = Except.ok tr) :
    (∀ kv ∈ tr.vars, startsWithUnderscore kv.1 = false ∧ jsonSafe kv.2 = true)
    ∧ ∀ g, c.globalsMap = some g →
        ∀ kv : String × PyVal,
          (kv ∈ tr.vars ↔ kv ∈ g ∧ startsWithUnderscore kv.1 = false ∧ jsonSafe kv.2 = true) := by
  simp only [execute_task] at h
  injection h with h2
  subst h2
  constructor
  · intro kv hkv
    simp only [format_result_for_nekro, execute_in_aipyapp, Option.getD_some] at hkv
    exact ((mem_collectVariables kv _).1 hkv).2
  · intro g hg kv
    simp only [format_result_for_nekro, execute_in_aipyapp, Option.getD_some, hg]
    exact mem_collectVariables kv g

/-- C9 witness: the variable-filter theorem at a concrete completion whose
globals hold a public JSON-safe entry (kept), a private entry and a
non-JSON-safe object (both dropped). -/
theorem task_result_variables_filtered_witness :
    ("x", PyVal.int 1) ∈ trC9.vars
      ↔ ("x", PyVal.int 1) ∈ gC9
        ∧ startsWithUnderscore ("x") = false ∧ jsonSafe (PyVal.int 1) = true :=
  (task_result_variables_filtered 300 cC9 trC9 (by rfl)).2 gC9 rfl ("x", PyVal.int 1)

/-- C10: `create_session` with an already-present key is a silent no-op: the
pool — including the existing record's config, timestamps and task count —
is entirely unchanged, the config argument of the repeated call is
discarded, and no eviction happens even at capacity. -/
theorem create_session_existing_key_noop (m : AipyappTaskManager) (sid : String)
    (r : SessionRecord) (config : Option (List (String × PyVal))) (now : Nat)
    (h : lookupSession m.sessions sid = some r) :
    m.create_session sid config now = m := by
  simp [AipyappTaskManager.create_session, h]

/-- C10 witness: the no-op theorem on a pool at full capacity
(`max_sessions = 1`), with a different config supplied on the repeated
call and a later timestamp. -/
theorem create_session_existing_key_noop_witness :
    mC10.create_session "s1" (some [("timeout", PyVal.int 600)]) 99 = mC10 :=
  create_session_existing_key_noop mC10 "s1" recC10
    (some [("timeout", PyVal.int 600)]) 99 rfl

/-- Setting `last_accessed` on the record stored under `sid` makes the
subsequent lookup of `sid` return the updated record. -/
theorem lookupSession_setLastAccessed_self (l : List (String × SessionRecord))
    (sid : String) (now : Nat) (r : SessionRecord)
    (h : lookupSession l sid = some r) :
    lookupSession (setLastAccessed l sid now) sid = some { r with last_accessed := now } := by
  induction l with
  | nil => simp [lookupSession] at h
  | cons kv rest ih =>
      obtain ⟨k, rec⟩ := kv
      by_cases hk : k = sid
      · subst hk
        simp [lookupSession, setLastAccessed] at h ⊢
        simp [h]
      · simp [lookupSession, setLastAccessed, hk] at h ⊢
        exact ih h

/-- Setting `last_accessed` on the record stored under `sid` leaves the
lookup of every other key unchanged. -/
theorem lookupSession_setLastAccessed_ne (l : List (String × SessionRecord))
    (sid sid' : String) (now : Nat) (h : sid' ≠ sid) :
    lookupSession (setLastAccessed l sid now) sid' = lookupSession l sid' := by
  induction l with
  | nil => simp [setLastAccessed]
  | cons kv rest ih =>
      obtain ⟨k, rec⟩ := kv
      by_cases hk : k = sid
      · subst hk
        have hk' : ¬ k = sid' := fun hh => h hh.symm
        simp [lookupSession, setLastAccessed, hk']
      · by_cases hk2 : k = sid'
        · subst hk2
          simp [lookupSession, setLastAccessed, hk]
        · simp [lookupSession, setLastAccessed, hk, hk2]
          exact ih

/-- Setting `last_accessed` neither adds nor removes keys. -/
theorem map_fst_setLastAccessed (l : List (String × SessionRecord))
    (sid : String) (now : Nat) :
    (setLastAccessed l sid now).map Prod.fst = l.map Prod.fst := by
  induction l with
  | nil => simp [setLastAccessed]
  | cons kv rest ih =>
      obtain ⟨k, rec⟩ := kv
      by_cases hk : k = sid
      · simp [setLastAccessed, hk]
      · simp [setLastAccessed, hk, ih]

/-- C8 counterexample: accessing an existing record via `get_session` sets
`last_accessed` to the current time but does not touch `task_count`
(`task_manager.py` lines 92-104 assign only `last_accessed`; nothing in the
module ever increments `task_count`), falsifying the claim that both fields
are mutated on every access. -/
theorem get_session_task_count_unchanged_cex :
    ((mC8.get_session "s1" 100).1.map (fun r => r.last_accessed) = some 100)
    ∧ ((mC8.get_session "s1" 100).1.map (fun r => r.task_count) = some 5)
    ∧ ¬ ((mC8.get_session "s1" 100).1.map (fun r => r.task_count) = some 6)
    ∧ ((lookupSession (mC8.get_session "s1" 100).2.sessions "s1").map
        (fun r => r.task_count) = some 5) := by
  refine ⟨rfl, rfl, ?_, rfl⟩
  decide

/-- C8 amended: `get_session` on a present key returns the stored record
with only `last_accessed` set to now — `workdir`, `config`, `task_manager`,
`created_at` and `task_count` are unchanged — updates exactly that record in
the pool (every other key's lookup is untouched, no key is added or
removed); on a missing key it returns `none` and leaves the pool unchanged. -/
theorem get_session_updates_only_last_accessed (m : AipyappTaskManager)
    (sid : String) (now : Nat) :
    (∀ r, lookupSession m.sessions sid = some r →
      (m.get_session sid now).1
        = some { workdir := r.workdir, config := r.config, task_manager := r.task_manager
               , created_at := r.created_at, last_accessed := now, task_count := r.task_count }
      ∧ lookupSession (m.get_session sid now).2.sessions sid
        = some { r with last_accessed := now }
      ∧ (∀ sid', sid' ≠ sid →
          lookupSession (m.get_session sid now).2.sessions sid'
            = lookupSession m.sessions sid')
      ∧ (m.get_session sid now).2.sessions.map Prod.fst = m.sessions.map Prod.fst)
    ∧ (lookupSession m.sessions sid = none → m.get_session sid now = (none, m)) := by
  constructor
  · intro r hr
    refine ⟨?_, ?_, ?_, ?_⟩
    · simp [AipyappTaskManager.get_session, hr]
    · simp only [AipyappTaskManager.get_session, hr]
      exact lookupSession_setLastAccessed_self m.sessions sid now r hr
    · intro sid' hne
      simp only [AipyappTaskManager.get_session, hr]
      exact lookupSession_setLastAccessed_ne m.sessions sid sid' now hne
    · simp only [AipyappTaskManager.get_session, hr]
      exact map_fst_setLastAccessed m.sessions sid now
  · intro hn
    simp [AipyappTaskManager.get_session, hn]

/-- C8 witness: the frame theorem at the concrete pool `mC8` (present key
`s1`, absent key `s2`). -/
theorem get_session_updates_only_last_accessed_witness :
    (mC8.get_session "s1" 100).1
      = some { workdir := recC8.workdir, config := recC8.config
             , task_manager := recC8.task_manager, created_at := recC8.created_at
             , last_accessed := 100, task_count := recC8.task_count }
    ∧ lookupSession (mC8.get_session "s1" 100).2.sessions "s2"
      = lookupSession mC8.sessions "s2"
    ∧ mC8.get_session "s2" 100 = (none, mC8) :=
  ⟨((get_session_updates_only_last_accessed mC8 "s1" 100).1 recC8 rfl).1,
   ((get_session_updates_only_last_accessed mC8 "s1" 100).1 recC8 rfl).2.2.1 "s2" (by decide),
   (get_session_updates_only_last_accessed mC8 "s2" 100).2 rfl⟩

/-- A list splits into the entries satisfying a predicate and the rest. -/
theorem length_filter_partition {α : Type} (l : List α) (p : α → Bool) :
    (l.filter p).length + (l.filter (fun a => !p a)).length = l.length := by
  induction l with
  | nil => rfl
  | cons a rest ih =>
      cases hp : p a <;> simp [List.filter_cons, hp] <;> omega

/-- Removing an absent key does nothing. -/
theorem removeSession_of_lookup_none (l : List (String × SessionRecord)) (sid : String)
    (h : lookupSession l sid = none) : removeSession l sid = l := by
  induction l with
  | nil => rfl
  | cons kv rest ih =>
      obtain ⟨k, rec⟩ := kv
      by_cases hk : k = sid
      · simp [lookupSession, hk] at h
      · simp only [lookupSession, hk, if_false] at h
        simp [removeSession, hk, ih h]

/-- On a pool with no duplicate keys, popping a key equals filtering it out. -/
theorem removeSession_eq_filter (l : List (String × SessionRecord)) (sid : String)
    (hnd : (l.map Prod.fst).Nodup) :
    removeSession l sid = l.filter (fun kv => kv.1 ≠ sid) := by
  induction l with
  | nil => rfl
  | cons kv rest ih =>
      obtain ⟨k, rec⟩ := kv
      simp only [List.map_cons, List.nodup_cons] at hnd
      obtain ⟨hk, hrest⟩ := hnd
      by_cases h : k = sid
      · subst h
        have hall : ∀ kv ∈ rest, (!decide (kv.1 = k)) = true := by
          intro kv hkv
          have hne : kv.1 ≠ k := fun hh => hk (hh ▸ List.mem_map_of_mem Prod.fst hkv)
          simp [hne]
        simp [removeSession, List.filter_eq_self.mpr hall]
      · simp [removeSession, h, ih hrest]

/-- The pool returned by `cleanup_session` is the pool with the key popped. -/
theorem cleanup_session_snd (m : AipyappTaskManager) (sid : String) :
    (m.cleanup_session sid).2 = { m with sessions := removeSession m.sessions sid } := by
  cases h : lookupSession m.sessions sid with
  | none => simp [AipyappTaskManager.cleanup_session, h, removeSession_of_lookup_none _ _ h]
  | some r => simp [AipyappTaskManager.cleanup_session, h]

/-- Folding `cleanup_session` over a key list only folds `removeSession`
over the session list. -/
theorem foldl_cleanup_session (ids : List String) : ∀ m : AipyappTaskManager,
    ids.foldl (fun acc sid => (acc.cleanup_session sid).2) m
      = { m with sessions := ids.foldl removeSession m.sessions } := by
  induction ids with
  | nil => intro m; rfl
  | cons k ks ih =>
      intro m
      simp only [List.foldl_cons]
      rw [cleanup_session_snd, ih]

/-- On a pool with no duplicate keys, popping each key of `ids` in turn
equals filtering out all of them. -/
theorem foldl_removeSession_eq_filter (ids : List String) :
    ∀ l : List (String × SessionRecord), (l.map Prod.fst).Nodup →
      ids.foldl removeSession l = l.filter (fun kv => kv.1 ∉ ids) := by
  induction ids with
  | nil => intro l _; simp
  | cons k ks ih =>
      intro l hnd
      simp only [List.foldl_cons]
      rw [removeSession_eq_filter l k hnd,
        ih _ (hnd.sublist ((List.filter_sublist l).map Prod.fst)),
        List.filter_filter]
      apply List.filter_congr
      intro kv _
      by_cases h1 : kv.1 = k <;> by_cases h2 : kv.1 ∈ ks <;> simp [h1, h2]

/-- C7: `cleanup_idle_sessions` removes exactly the records whose idle time
strictly exceeds `session_timeout`: the surviving pool is the fresh-record
filter of the original, every idle record is gone, every fresh record is
retained, and the returned count is the number of idle records, so count
plus survivors equals the original size. -/
theorem cleanup_idle_sessions_exact (m : AipyappTaskManager) (now : Nat)
    (hnd : (m.sessions.map Prod.fst).Nodup) :
    (m.cleanup_idle_sessions now).2.sessions
      = m.sessions.filter (fun kv => ¬ now - kv.2.last_accessed > m.session_timeout)
    ∧ (m.cleanup_idle_sessions now).1
      = (m.sessions.filter (fun kv => now - kv.2.last_accessed > m.session_timeout)).length
    ∧ (m.cleanup_idle_sessions now).1 + (m.cleanup_idle_sessions now).2.sessions.length
      = m.sessions.length
    ∧ (∀ kv ∈ m.sessions, now - kv.2.last_accessed > m.session_timeout →
        kv ∉ (m.cleanup_idle_sessions now).2.sessions)
    ∧ (∀ kv ∈ m.sessions, ¬ now - kv.2.last_accessed > m.session_timeout →
        kv ∈ (m.cleanup_idle_sessions now).2.sessions) := by
  have hsess : (m.cleanup_idle_sessions now).2.sessions
      = m.sessions.filter (fun kv => ¬ now - kv.2.last_accessed > m.session_timeout) := by
    show (((m.sessions.filter
        (fun kv => now - kv.2.last_accessed > m.session_timeout)).map Prod.fst).foldl
          (fun acc sid => (acc.cleanup_session sid).2) m).sessions = _
    rw [foldl_cleanup_session]
    show ((((m.sessions.filter
        (fun kv => now - kv.2.last_accessed > m.session_timeout)).map Prod.fst)).foldl
          removeSession m.sessions) = _
    rw [foldl_removeSession_eq_filter _ m.sessions hnd]
    apply List.filter_congr
    intro kv hkv
    have hiff : kv.1 ∈ (m.sessions.filter
        (fun kv => now - kv.2.last_accessed > m.session_timeout)).map Prod.fst
        ↔ (decide (now - kv.2.last_accessed > m.session_timeout)) = true := by
      constructor
      · intro hin
        obtain ⟨kv', hkv', heq⟩ := List.mem_map.1 hin
        obtain ⟨hkv'm, hp⟩ := List.mem_filter.1 hkv'
        have hkveq : kv' = kv := List.inj_on_of_nodup_map hnd hkv'm hkv heq
        rw [← hkveq]
        exact hp
      · intro hp
        exact List.mem_map_of_mem Prod.fst (List.mem_filter.2 ⟨hkv, hp⟩)
    by_cases hp : (decide (now - kv.2.last_accessed > m.session_timeout)) = true
    · simp only [decide_eq_true_eq] at hp
      simp [hiff.2, hp]
    · simp only [decide_eq_true_eq] at hp
      have hnin : kv.1 ∉ (m.sessions.filter
          (fun kv => now - kv.2.last_accessed > m.session_timeout)).map Prod.fst :=
        fun hin => hp (by simpa using hiff.1 hin)
      simp [hnin, hp]
  have hcount : (m.cleanup_idle_sessions now).1
      = (m.sessions.filter (fun kv => now - kv.2.last_accessed > m.session_timeout)).length := by
    show ((m.sessions.filter
        (fun kv => now - kv.2.last_accessed > m.session_timeout)).map Prod.fst).length = _
    rw [List.length_map]
  refine ⟨hsess, hcount, ?_, ?_, ?_⟩
  · rw [hsess, hcount]
    simp only [decide_not]
    exact length_filter_partition m.sessions
      (fun kv => decide (now - kv.2.last_accessed > m.session_timeout))
  · intro kv hkv hp hmem
    rw [hsess] at hmem
    have := (List.mem_filter.1 hmem).2
    simp only [decide_not, Bool.not_eq_true', decide_eq_false_iff_not] at this
    exact this hp
  · intro kv hkv hp
    rw [hsess]
    exact List.mem_filter.2 ⟨hkv, by simp [hp]⟩

/-- C7 witness: the idle-reaping theorem on a two-record pool whose first
record is idle and second is fresh. -/
theorem cleanup_idle_sessions_exact_witness :
    (mC7.cleanup_idle_sessions 100).1
      = (mC7.sessions.filter (fun kv => 100 - kv.2.last_accessed > mC7.session_timeout)).length
    ∧ ("s1", recC7idle) ∉ (mC7.cleanup_idle_sessions 100).2.sessions
    ∧ ("s2", recC7fresh) ∈ (mC7.cleanup_idle_sessions 100).2.sessions :=
  ⟨(cleanup_idle_sessions_exact mC7 100 (by decide)).2.1,
   (cleanup_idle_sessions_exact mC7 100 (by decide)).2.2.2.1 ("s1", recC7idle)
     (by simp [mC7]) (by decide),
   (cleanup_idle_sessions_exact mC7 100 (by decide)).2.2.2.2 ("s2", recC7fresh)
     (by simp [mC7]) (by decide)⟩

/-- `oldestEntry` of a nonempty list is present. -/
theorem oldestEntry_isSome (l : List (String × SessionRecord)) (h : l ≠ []) :
    (oldestEntry l).isSome = true := by
  cases l with
  | nil => exact absurd rfl h
  | cons e rest => simp [oldestEntry]

/-- `oldestEntry` returns an entry of the list. -/
theorem oldestEntry_mem (l : List (String × SessionRecord)) (e : String × SessionRecord)
    (h : oldestEntry l = some e) : e ∈ l := by
  induction l generalizing e with
  | nil => simp [oldestEntry] at h
  | cons x rest ih =>
      cases holdest : oldestEntry rest with
      | none =>
          simp only [oldestEntry, holdest, Option.some.injEq] at h
          simp [← h]
      | some b =>
          simp only [oldestEntry, holdest, Option.some.injEq] at h
          by_cases hlt : b.2.last_accessed < x.2.last_accessed
          · rw [if_pos hlt] at h
            exact List.mem_cons_of_mem x (h ▸ ih b holdest)
          · rw [if_neg hlt] at h
            simp [← h]

/-- `oldestEntry` attains the minimal `last_accessed`. -/
theorem oldestEntry_le (l : List (String × SessionRecord)) (e : String × SessionRecord)
    (h : oldestEntry l = some e) :
    ∀ x ∈ l, e.2.last_accessed ≤ x.2.last_accessed := by
  induction l generalizing e with
  | nil => simp [oldestEntry] at h
  | cons x rest ih =>
      intro y hy
      cases holdest : oldestEntry rest with
      | none =>
          have hrest : rest = [] := by
            cases rest with
            | nil => rfl
            | cons z zs => simp [oldestEntry] at holdest
          subst hrest
          simp only [oldestEntry, Option.some.injEq] at h
          simp only [List.mem_singleton] at hy
          subst hy
          simp [← h]
      | some b =>
          simp only [oldestEntry, holdest, Option.some.injEq] at h
          rcases List.mem_cons.1 hy with hyx | hyr
          · subst hyx
            by_cases hlt : b.2.last_accessed < y.2.last_accessed
            · rw [if_pos hlt] at h
              exact le_of_lt (h ▸ hlt)
            · rw [if_neg hlt] at h
              exact le_of_eq (congrArg (fun z => z.2.last_accessed) h.symm)
          · by_cases hlt : b.2.last_accessed < x.2.last_accessed
            · rw [if_pos hlt] at h
              exact h ▸ ih b holdest y hyr
            · rw [if_neg hlt] at h
              have hxb : x.2.last_accessed ≤ b.2.last_accessed := Nat.le_of_not_lt hlt
              have hby : b.2.last_accessed ≤ y.2.last_accessed := ih b holdest y hyr
              exact h ▸ Nat.le_trans hxb hby

/-- A list member's key is found by lookup. -/
theorem lookupSession_isSome_of_mem (l : List (String × SessionRecord))
    (e : String × SessionRecord) (h : e ∈ l) :
    (lookupSession l e.1).isSome = true := by
  induction l with
  | nil => simp at h
  | cons x rest ih =>
      rcases List.mem_cons.1 h with hx | hr
      · subst hx
        simp [lookupSession]
      · by_cases hk : x.1 = e.1
        · simp [lookupSession, hk]
        · simp only [lookupSession]
          rw [if_neg hk]
          exact ih hr

/-- Popping a present key shrinks the list by exactly one entry. -/
theorem removeSession_length (l : List (String × SessionRecord)) (sid : String)
    (h : (lookupSession l sid).isSome = true) :
    (removeSession l sid).length + 1 = l.length := by
  induction l with
  | nil => simp [lookupSession] at h
  | cons x rest ih =>
      by_cases hk : x.1 = sid
      · show (if x.1 = sid then rest else x :: removeSession rest sid).length + 1 = _
        rw [if_pos hk]
        simp
      · show (if x.1 = sid then rest else x :: removeSession rest sid).length + 1 = _
        rw [if_neg hk]
        simp only [lookupSession] at h
        rw [if_neg hk] at h
        simp only [List.length_cons]
        rw [← ih h]

/-- Evicting the oldest entry of a nonempty pool shrinks it by one. -/
theorem cleanup_oldest_length (m : AipyappTaskManager) (h : m.sessions ≠ []) :
    (m.cleanup_oldest_session).sessions.length + 1 = m.sessions.length := by
  cases holdest : oldestEntry m.sessions with
  | none =>
      have hs := oldestEntry_isSome m.sessions h
      rw [holdest] at hs
      simp at hs
  | some e =>
      have hmem := oldestEntry_mem m.sessions e holdest
      have hsome := lookupSession_isSome_of_mem m.sessions e hmem
      simp only [AipyappTaskManager.cleanup_oldest_session, holdest]
      rw [cleanup_session_snd]
      exact removeSession_length m.sessions e.1 hsome

/-- `cleanup_session` changes only the session list. -/
theorem cleanup_session_frame (m : AipyappTaskManager) (sid : String) :
    (m.cleanup_session sid).2.max_sessions = m.max_sessions
    ∧ (m.cleanup_session sid).2.workdir = m.workdir := by
  rw [cleanup_session_snd]
  exact ⟨rfl, rfl⟩

/-- `cleanup_oldest_session` changes only the session list. -/
theorem cleanup_oldest_frame (m : AipyappTaskManager) :
    (m.cleanup_oldest_session).max_sessions = m.max_sessions
    ∧ (m.cleanup_oldest_session).workdir = m.workdir := by
  cases holdest : oldestEntry m.sessions with
  | none => simp [AipyappTaskManager.cleanup_oldest_session, holdest]
  | some e =>
      simp only [AipyappTaskManager.cleanup_oldest_session, holdest]
      exact cleanup_session_frame m e.1

/-- `create_session` never changes the configured capacity. -/
theorem create_session_max (m : AipyappTaskManager) (sid : String)
    (config : Option (List (String × PyVal))) (now : Nat) :
    (m.create_session sid config now).max_sessions = m.max_sessions := by
  by_cases hpres : (lookupSession m.sessions sid).isSome = true
  · simp [AipyappTaskManager.create_session, hpres]
  · by_cases hcap : m.sessions.length ≥ m.max_sessions
    · simp [AipyappTaskManager.create_session, hpres, hcap, (cleanup_oldest_frame m).1]
    · simp [AipyappTaskManager.create_session, hpres, hcap]

/-- One `create_session` call preserves the capacity bound when the
capacity is at least one. -/
theorem create_session_length_le (m : AipyappTaskManager) (sid : String)
    (config : Option (List (String × PyVal))) (now : Nat)
    (h1 : 1 ≤ m.max_sessions) (h2 : m.sessions.length ≤ m.max_sessions) :
    (m.create_session sid config now).sessions.length ≤ m.max_sessions := by
  by_cases hpres : (lookupSession m.sessions sid).isSome = true
  · simpa [AipyappTaskManager.create_session, hpres] using h2
  · by_cases hcap : m.sessions.length ≥ m.max_sessions
    · have hne : m.sessions ≠ [] := by
        intro hnil
        rw [hnil] at hcap
        simp only [List.length_nil] at hcap
        omega
      have hlen := cleanup_oldest_length m hne
      simp only [AipyappTaskManager.create_session, hpres, Bool.false_eq_true, if_false,
        hcap, if_true, List.length_append, List.length_cons, List.length_nil]
      omega
    · simp only [AipyappTaskManager.create_session, hpres, Bool.false_eq_true, if_false,
        hcap, if_false, List.length_append, List.length_cons, List.length_nil]
      omega

/-- A sequence of `create_session` calls never changes the capacity. -/
theorem runCreates_max (ops : List (String × Option (List (String × PyVal)) × Nat)) :
    ∀ m : AipyappTaskManager, (runCreates m ops).max_sessions = m.max_sessions := by
  induction ops with
  | nil => intro m; rfl
  | cons op rest ih =>
      intro m
      obtain ⟨sid, config, now⟩ := op
      show (runCreates (m.create_session sid config now) rest).max_sessions = _
      rw [ih, create_session_max]

/-- C4: (capacity invariant) starting within capacity, no sequence of
`create_session` calls ever grows the pool beyond `max_sessions` (capacity
at least 1); (LRU eviction) a `create_session` with a fresh key on a pool at
capacity evicts exactly one record — one attaining the minimal
`last_accessed` — and then appends the new record; (scenario) with
`max_sessions = 5`, creating `s0..s4` at times `0..4` and then `s5` leaves
exactly `{s1, s2, s3, s4, s5}`. -/
theorem session_pool_capacity_lru :
    (∀ (ops : List (String × Option (List (String × PyVal)) × Nat))
       (m : AipyappTaskManager), 1 ≤ m.max_sessions →
        m.sessions.length ≤ m.max_sessions →
        (runCreates m ops).sessions.length ≤ m.max_sessions)
    ∧ (∀ (m : AipyappTaskManager) (sid : String)
         (config : Option (List (String × PyVal))) (now : Nat),
        lookupSession m.sessions sid = none →
        m.sessions.length = m.max_sessions → 1 ≤ m.max_sessions →
        (oldestEntry m.sessions).isSome = true
        ∧ ∀ e, oldestEntry m.sessions = some e →
            e ∈ m.sessions
            ∧ (∀ x ∈ m.sessions, e.2.last_accessed ≤ x.2.last_accessed)
            ∧ (m.create_session sid config now).sessions
                = removeSession m.sessions e.1 ++
                  [(sid, { workdir := m.workdir ++ "/" ++ sid
                         , config := config.getD []
                         , task_manager := none
                         , created_at := now
                         , last_accessed := now
                         , task_count := 0 })]
            ∧ (m.create_session sid config now).sessions.length = m.max_sessions)
    ∧ (runCreates mC4 opsC4).sessions.map Prod.fst = ["s1", "s2", "s3", "s4", "s5"] := by
  refine ⟨?_, ?_, ?_⟩
  · intro ops
    induction ops with
    | nil => intro m _ h2; exact h2
    | cons op rest ih =>
        intro m h1 h2
        obtain ⟨sid, config, now⟩ := op
        show (runCreates (m.create_session sid config now) rest).sessions.length ≤ _
        have hmax := create_session_max m sid config now
        have := ih (m.create_session sid config now)
          (hmax ▸ h1) (hmax ▸ create_session_length_le m sid config now h1 h2)
        rw [hmax] at this
        exact this
  · intro m sid config now h0 hlen h1
    have hne : m.sessions ≠ [] := by
      intro hnil
      rw [hnil] at hlen
      simp only [List.length_nil] at hlen
      omega
    refine ⟨oldestEntry_isSome m.sessions hne, ?_⟩
    intro e holdest
    have hcap : m.sessions.length ≥ m.max_sessions := le_of_eq hlen.symm
    have hpres : ¬ (lookupSession m.sessions sid).isSome = true := by
      rw [h0]; simp
    have hsess : (m.create_session sid config now).sessions
        = removeSession m.sessions e.1 ++
          [(sid, { workdir := m.workdir ++ "/" ++ sid
                 , config := config.getD []
                 , task_manager := none
                 , created_at := now
                 , last_accessed := now
                 , task_count := 0 })] := by
      simp only [AipyappTaskManager.create_session, hpres, Bool.false_eq_true, if_false,
        hcap, if_true, AipyappTaskManager.cleanup_oldest_session, holdest,
        cleanup_session_snd]
    refine ⟨oldestEntry_mem m.sessions e holdest,
      oldestEntry_le m.sessions e holdest, hsess, ?_⟩
    rw [hsess]
    have hsome := lookupSession_isSome_of_mem m.sessions e
      (oldestEntry_mem m.sessions e holdest)
    have hrl := removeSession_length m.sessions e.1 hsome
    simp only [List.length_append, List.length_cons, List.length_nil]
    omega
  · rfl

/-- C4 witness: the capacity part on the concrete scenario pool, and the
eviction part on a full two-entry pool whose least-recently-used entry is
the second one. -/
theorem session_pool_capacity_lru_witness :
    (runCreates mC4 opsC4).sessions.length ≤ mC4.max_sessions
    ∧ ("b", recC4b) ∈ mC4full.sessions
    ∧ (mC4full.create_session "c" none 9).sessions
        = removeSession mC4full.sessions "b" ++
          [("c", { workdir := "/w/c", config := [], task_manager := none
                 , created_at := 9, last_accessed := 9, task_count := 0 })] :=
  ⟨session_pool_capacity_lru.1 opsC4 mC4 (by decide) (by decide),
   ((session_pool_capacity_lru.2.1 mC4full "c" none 9 rfl rfl (by decide)).2
     ("b", recC4b) rfl).1,
   ((session_pool_capacity_lru.2.1 mC4full "c" none 9 rfl rfl (by decide)).2
     ("b", recC4b) rfl).2.2.1⟩

/-- One workflow step whose `execute_task` returns success: record the step,
rebind the context to the step's variables, accumulate its time, continue. -/
theorem workflowGo_cons_ok (t i : Nat) (cz : List (String × PyVal))
    (acc : List WorkflowStep) (tot : Nat) (si : String) (sev : RuntimeEvent)
    (rest : List (String × RuntimeEvent)) (r : TaskResult)
    (hex : execute_task t sev = Except.ok r) (hs : r.success = true) :
    workflowGo t i cz acc tot ((si, sev) :: rest)
      = ((workflowGo t (i + 1) [("variables", PyVal.dict r.vars)]
            (acc ++ [{ step := i + 1, instruction := si, result := r }])
            (tot + r.execution_time) rest).1,
         (si, cz) :: (workflowGo t (i + 1) [("variables", PyVal.dict r.vars)]
            (acc ++ [{ step := i + 1, instruction := si, result := r }])
            (tot + r.execution_time) rest).2) := by
  simp only [workflowGo, hex]
  rw [if_pos hs]

/-- One workflow step whose `execute_task` returns a failure result: record
the step and stop with the failure response (no aggregate artifacts, total
time without this step). -/
theorem workflowGo_cons_fail (t i : Nat) (cz : List (String × PyVal))
    (acc : List WorkflowStep) (tot : Nat) (si : String) (sev : RuntimeEvent)
    (rest : List (String × RuntimeEvent)) (r : TaskResult)
    (hex : execute_task t sev = Except.ok r) (hs : r.success = false) :
    workflowGo t i cz acc tot ((si, sev) :: rest)
      = ({ success := false
         , steps := acc ++ [{ step := i + 1, instruction := si, result := r }]
         , error := some ("Step " ++ toString (i + 1) ++ " failed: " ++ pyStrOpt r.error)
         , final_output := none, artifacts := none, total_time := some tot },
         [(si, cz)]) := by
  simp only [workflowGo, hex]
  rw [if_neg (by simp [hs])]

/-- Destructuring a succeeding step's behaviour. -/
theorem stepSucceeds_elim (t : Nat) (ev : RuntimeEvent) (hs : stepSucceeds t ev = true) :
    ∃ r : TaskResult, execute_task t ev = Except.ok r ∧ r.success = true := by
  unfold stepSucceeds at hs
  cases hex : execute_task t ev with
  | error e => rw [hex] at hs; simp at hs
  | ok r =>
      rw [hex] at hs
      exact ⟨r, rfl, hs⟩

/-- Running the workflow loop on steps that all succeed until a step whose
result reports failure: the loop stops at that step with a failure outcome,
recording it, aggregating no artifacts, and totalling only the prior steps'
times; later steps are never invoked. -/
theorem workflowGo_stop (t : Nat) (bi : String) (bev : RuntimeEvent)
    (post : List (String × RuntimeEvent)) (hb : stepFailsOk t bev = true) :
    ∀ (pre : List (String × RuntimeEvent)), (∀ s ∈ pre, stepSucceeds t s.2 = true) →
    ∀ (i : Nat) (cz : List (String × PyVal)) (acc : List WorkflowStep) (tot : Nat),
      (workflowGo t i cz acc tot (pre ++ (bi, bev) :: post)).1.success = false
      ∧ (workflowGo t i cz acc tot (pre ++ (bi, bev) :: post)).1.steps.length
          = acc.length + (pre.length + 1)
      ∧ (workflowGo t i cz acc tot (pre ++ (bi, bev) :: post)).1.artifacts = none
      ∧ (workflowGo t i cz acc tot (pre ++ (bi, bev) :: post)).1.total_time
          = some (tot + (pre.map (fun s => resultTime t s.2)).sum)
      ∧ (workflowGo t i cz acc tot (pre ++ (bi, bev) :: post)).2.map Prod.fst
          = (pre ++ [(bi, bev)]).map Prod.fst := by
  intro pre
  induction pre with
  | nil =>
      intro _ i cz acc tot
      unfold stepFailsOk at hb
      cases hex : execute_task t bev with
      | error e => rw [hex] at hb; simp at hb
      | ok r =>
          rw [hex] at hb
          simp only [Bool.not_eq_true'] at hb
          rw [List.nil_append, workflowGo_cons_fail t i cz acc tot bi bev post r hex hb]
          simp
  | cons s pre ih =>
      intro hpre i cz acc tot
      obtain ⟨si, sev⟩ := s
      obtain ⟨r, hex, hs⟩ := stepSucceeds_elim t sev (hpre (si, sev) (List.mem_cons_self _ _))
      have hrest : ∀ x ∈ pre, stepSucceeds t x.2 = true :=
        fun x hx => hpre x (List.mem_cons_of_mem _ hx)
      have IH := ih hrest (i + 1) [("variables", PyVal.dict r.vars)]
        (acc ++ [{ step := i + 1, instruction := si, result := r }])
        (tot + r.execution_time)
      have htime : resultTime t sev = r.execution_time := by
        unfold resultTime; rw [hex]
      rw [List.cons_append,
        workflowGo_cons_ok t i cz acc tot si sev (pre ++ (bi, bev) :: post) r hex hs]
      refine ⟨IH.1, ?_, IH.2.2.1, ?_, ?_⟩
      · rw [IH.2.1]
        simp only [List.length_append, List.length_cons, List.length_nil]
        omega
      · rw [IH.2.2.2.1]
        simp only [List.map_cons, List.sum_cons, htime, Option.some.injEq]
        omega
      · simp only [List.map_cons, List.cons_append]
        rw [IH.2.2.2.2]

/-- Running the workflow loop on steps that all succeed: the loop records
every step, reports success, aggregates all artifacts in order and sums all
execution times. -/
theorem workflowGo_allOk (t : Nat) :
    ∀ (l : List (String × RuntimeEvent)), (∀ s ∈ l, stepSucceeds t s.2 = true) →
    ∀ (i : Nat) (cz : List (String × PyVal)) (acc : List WorkflowStep) (tot : Nat),
      acc ≠ [] ∨ l ≠ [] →
      (workflowGo t i cz acc tot l).1.success = true
      ∧ (workflowGo t i cz acc tot l).1.steps.length = acc.length + l.length
      ∧ (workflowGo t i cz acc tot l).1.artifacts
          = some ((acc.map (fun s => s.result.artifacts)).flatten
              ++ (l.map (fun s => resultArtifacts t s.2)).flatten)
      ∧ (workflowGo t i cz acc tot l).1.total_time
          = some (tot + (l.map (fun s => resultTime t s.2)).sum)
      ∧ (workflowGo t i cz acc tot l).2.map Prod.fst = l.map Prod.fst := by
  intro l
  induction l with
  | nil =>
      intro _ i cz acc tot hne
      have hacc : acc ≠ [] := by
        rcases hne with h | h
        · exact h
        · exact absurd rfl h
      cases hlast : acc.getLast? with
      | none => exact absurd (List.getLast?_eq_none_iff.1 hlast) hacc
      | some lastStep => simp [workflowGo, hlast]
  | cons s rest ih =>
      intro hl i cz acc tot _
      obtain ⟨si, sev⟩ := s
      obtain ⟨r, hex, hs⟩ := stepSucceeds_elim t sev (hl (si, sev) (List.mem_cons_self _ _))
      have hrest : ∀ x ∈ rest, stepSucceeds t x.2 = true :=
        fun x hx => hl x (List.mem_cons_of_mem _ hx)
      have IH := ih hrest (i + 1) [("variables", PyVal.dict r.vars)]
        (acc ++ [{ step := i + 1, instruction := si, result := r }])
        (tot + r.execution_time) (Or.inl (by simp))
      have htime : resultTime t sev = r.execution_time := by
        unfold resultTime; rw [hex]
      have hart : resultArtifacts t sev = r.artifacts := by
        unfold resultArtifacts; rw [hex]
      rw [workflowGo_cons_ok t i cz acc tot si sev rest r hex hs]
      refine ⟨IH.1, ?_, ?_, ?_, ?_⟩
      · rw [IH.2.1]
        simp only [List.length_append, List.length_cons, List.length_nil]
        omega
      · rw [IH.2.2.1]
        simp only [List.map_append, List.map_cons, List.flatten_append, List.flatten_cons,
          List.map_nil, List.flatten_nil, List.append_nil, List.append_assoc, hart,
          Option.some.injEq]
      · rw [IH.2.2.2.1]
        simp only [List.map_cons, List.sum_cons, htime, Option.some.injEq]
        omega
      · simp only [List.map_cons]
        rw [IH.2.2.2.2]

/-- C5 counterexample: in the workflow `["a", "b", "c"]` where step `a`
succeeds and produces artifact `x.png` and step `b` fails, the failure
response carries no aggregate artifacts field at all (`artifacts = none`;
per-step artifacts survive only inside the recorded steps), falsifying the
claim that the workflow aggregates all prior steps' artifacts when it stops
at a failing step. -/
theorem workflow_failure_no_artifact_aggregation_cex :
    (execute_python_workflow 300 wfC5).1.artifacts = none
    ∧ (execute_python_workflow 300 wfC5).1.steps.map (fun s => s.result.artifacts)
        = [["x.png"], []]
    ∧ ¬ (execute_python_workflow 300 wfC5).1.artifacts = some ["x.png"] :=
  ⟨rfl, rfl, by decide⟩

/-- C5 amended: `execute_python_workflow` runs its steps sequentially
against the same session, threading each step's variables into the next
step's context; it stops at the first step whose result has
`success=False`, records that step, never invokes later ones, and reports
the prior steps' total time — but aggregates artifacts only on the
all-success path (the failure response has no aggregate artifacts list);
overall `success=True` exactly when every step ran and succeeded. -/
theorem execute_python_workflow_behaviour :
    (∀ (t : Nat) (pre : List (String × RuntimeEvent)) (bi : String)
       (bev : RuntimeEvent) (post : List (String × RuntimeEvent)),
      (∀ s ∈ pre, stepSucceeds t s.2 = true) → stepFailsOk t bev = true →
        (execute_python_workflow t (pre ++ (bi, bev) :: post)).1.success = false
        ∧ (execute_python_workflow t (pre ++ (bi, bev) :: post)).1.steps.length
            = pre.length + 1
        ∧ (execute_python_workflow t (pre ++ (bi, bev) :: post)).1.artifacts = none
        ∧ (execute_python_workflow t (pre ++ (bi, bev) :: post)).1.total_time
            = some ((pre.map (fun s => resultTime t s.2)).sum)
        ∧ (execute_python_workflow t (pre ++ (bi, bev) :: post)).2.map Prod.fst
            = (pre ++ [(bi, bev)]).map Prod.fst)
    ∧ (∀ (t : Nat) (l : List (String × RuntimeEvent)), l ≠ [] →
        (∀ s ∈ l, stepSucceeds t s.2 = true) →
        (execute_python_workflow t l).1.success = true
        ∧ (execute_python_workflow t l).1.steps.length = l.length
        ∧ (execute_python_workflow t l).1.artifacts
            = some ((l.map (fun s => resultArtifacts t s.2)).flatten)
        ∧ (execute_python_workflow t l).1.total_time
            = some ((l.map (fun s => resultTime t s.2)).sum)
        ∧ (execute_python_workflow t l).2.map Prod.fst = l.map Prod.fst)
    ∧ (execute_python_workflow 300 wfC5ok).2
        = [("a", []), ("b", [("variables", PyVal.dict [("x", PyVal.int 1)])]),
           ("c", [("variables", PyVal.dict [("y", PyVal.int 2)])])]
    ∧ ((execute_python_workflow 300 wfC5).1.success = false
      ∧ (execute_python_workflow 300 wfC5).1.steps.length = 2
      ∧ (execute_python_workflow 300 wfC5).2.map Prod.fst = ["a", "b"]
      ∧ (execute_python_workflow 300 wfC5).1.error
          = some "Step 2 failed: bad step") := by
  refine ⟨?_, ?_, rfl, rfl, rfl, rfl, rfl⟩
  · intro t pre bi bev post hpre hb
    have h := workflowGo_stop t bi bev post hb pre hpre 0 [] [] 0
    simp only [execute_python_workflow]
    refine ⟨h.1, ?_, h.2.2.1, ?_, h.2.2.2.2⟩
    · rw [h.2.1]
      simp
    · rw [h.2.2.2.1]
      simp
  · intro t l hne hl
    have h := workflowGo_allOk t l hl 0 [] [] 0 (Or.inr hne)
    simp only [execute_python_workflow]
    refine ⟨h.1, ?_, ?_, ?_, h.2.2.2.2⟩
    · rw [h.2.1]
      simp
    · rw [h.2.2.1]
      simp
    · rw [h.2.2.2.1]
      simp

/-- C5 witness: the workflow theorem at the concrete three-step workflows —
`a` succeeds then `b` fails (stop part) and all three succeed (aggregation
part). -/
theorem execute_python_workflow_behaviour_witness :
    (execute_python_workflow 300 wfC5).1.success = false
    ∧ (execute_python_workflow 300 wfC5).1.steps.length = 2
    ∧ (execute_python_workflow 300 wfC5).2.map Prod.fst = ["a", "b"]
    ∧ (execute_python_workflow 300 wfC5ok).1.success = true
    ∧ (execute_python_workflow 300 wfC5ok).1.artifacts = some ["x.png", "y.csv"] := by
  have hA := execute_python_workflow_behaviour.1 300 [("a", evC5a)] "b" evC5fail
    [("c", evC5c)] (by decide) (by decide)
  have hB := execute_python_workflow_behaviour.2.1 300 wfC5ok
    (by simp [wfC5ok]) (by decide)
  exact ⟨hA.1, hA.2.1, hA.2.2.2.2, hB.1, hB.2.2.1⟩

/-- C4 counterexample: with the degenerate capacity `max_sessions = 0`, a
single `create_session` makes the pool hold 1 > 0 records — the capacity
check fires but `_cleanup_oldest_session` is a no-op on an empty pool and
the record is inserted anyway — so the invariant as stated fails without a
positive-capacity assumption. -/
theorem create_session_capacity_zero_cex :
    (mC4zero.create_session "s" none 0).sessions.length = 1
    ∧ ¬ (mC4zero.create_session "s" none 0).sessions.length ≤ mC4zero.max_sessions :=
  ⟨rfl, by decide⟩
